import Mathlib

/-!
Verification of the slurm-term polling/diffing, log-tailing, notification,
metrics-window and validation core, shallowly embedded from the Python
sources (`slurm_term/utils/validators.py`, `slurm_term/slurm_api.py`,
`slurm_term/screens/monitor.py`, `slurm_term/screens/inspector.py`).

Python strings are embedded as `List Char`; Python floats as `ℚ`
(the claims checked here depend only on order/clamping facts that hold in
either arithmetic); Python `dict` job maps as insertion-ordered association
lists; raising `ValueError` as returning `none`.
-/

namespace SlurmTerm

/-- Embedding of a Python `str` as a list of characters. -/
abbrev Str := List Char

/-! ### Python string primitives used by the sources -/

/-- The ASCII whitespace characters recognised by Python's `str.strip()`
(unicode whitespace beyond ASCII is not modelled; none occurs in the data
handled by the claims). -/
def isPySpace (c : Char) : Bool :=
  c = ' ' || c = '\t' || c = '\n' || c = '\r' || c = '\x0b' || c = '\x0c'

/-- Python `str.strip()`: drop leading and trailing whitespace. -/
def pyStrip (l : Str) : Str :=
  ((l.dropWhile isPySpace).reverse.dropWhile isPySpace).reverse

/-- Python `str.upper()` (ASCII; the job-state strings involved are ASCII). -/
def pyUpper (l : Str) : Str := l.map Char.toUpper

/-- Python `str.lower()` (ASCII). -/
def pyLower (l : Str) : Str := l.map Char.toLower

/-- Python `int(s)` on an unsigned decimal digit run: `none` models the
`ValueError` raised on any other input.  (Python's `int` additionally
accepts surrounding whitespace, a sign and underscore separators; no such
input reaches `int` in the code paths under verification.) -/
def pyIntDigits? (l : Str) : Option Nat :=
  if l ≠ [] ∧ l.all Char.isDigit then
    some (l.foldl (fun a c => a * 10 + (c.toNat - 48)) 0)
  else none

/-- Split at the first occurrence of `sep`, as Python's
`s.split(sep, 1)` guarded by `sep in s`: `none` when `sep` does not occur. -/
def splitFirst (sep : Char) : Str → Option (Str × Str)
  | [] => none
  | c :: cs =>
    if c = sep then some ([], cs)
    else (splitFirst sep cs).map (fun p => (c :: p.1, p.2))

/-- Python `s.split(sep)` (no limit) for a single-character separator. -/
def splitOnChar (sep : Char) : Str → List Str
  | [] => [[]]
  | c :: cs =>
    match splitOnChar sep cs with
    | [] => [[c]]
    | h :: t => if c = sep then [] :: h :: t else (c :: h) :: t

/-- Fuel-driven decimal rendering (structural recursion so that concrete
instances reduce inside the kernel; `natToChars` supplies ample fuel). -/
def natToCharsAux : Nat → Nat → Str
  | 0, _ => []
  | fuel + 1, n =>
    if n < 10 then [Char.ofNat (48 + n)]
    else natToCharsAux fuel (n / 10) ++ [Char.ofNat (48 + n % 10)]

/-- Decimal rendering of a natural number, as produced by Python's
string formatting of a nonnegative `int`. -/
def natToChars (n : Nat) : Str := natToCharsAux (n + 1) n

/-- The fuel argument of `natToCharsAux` is irrelevant once it exceeds `n`. -/
theorem natToCharsAux_fuel (f₁ f₂ n : Nat) (h₁ : n < f₁) (h₂ : n < f₂) :
    natToCharsAux f₁ n = natToCharsAux f₂ n := by
  induction n using Nat.strong_induction_on generalizing f₁ f₂ with
  | _ n ih =>
    match f₁, f₂ with
    | a + 1, b + 1 =>
      simp only [natToCharsAux]
      by_cases hn : n < 10
      · simp [hn]
      · have hdiv : n / 10 < n := Nat.div_lt_self (by omega) (by omega)
        simp only [hn, if_false]
        rw [ih (n / 10) hdiv a b (by omega) (by omega)]

/-- Unfolding equation for `natToChars` in the shape of the recursion. -/
theorem natToChars_eq (n : Nat) :
    natToChars n =
      if n < 10 then [Char.ofNat (48 + n)]
      else natToChars (n / 10) ++ [Char.ofNat (48 + n % 10)] := by
  unfold natToChars
  conv_lhs => rw [natToCharsAux]
  by_cases hn : n < 10
  · simp [hn]
  · have hdiv : n / 10 < n := Nat.div_lt_self (by omega) (by omega)
    simp only [hn, if_false]
    rw [natToCharsAux_fuel n (n / 10 + 1) (n / 10) hdiv (by omega)]

/-- Python `f"{n:02d}"`: two-digit zero padding. -/
def pad2 (n : Nat) : Str :=
  if n < 10 then '0' :: natToChars n else natToChars n

/-! ### `slurm_term/utils/validators.py` -/

/-- `validators.parse_time`: parse a Slurm-style time string
(`SS`, `MM:SS`, `HH:MM:SS`, `D-HH:MM:SS`) into total seconds.
`none` models the `ValueError` paths (empty input, non-numeric parts,
too many `:`-separated fields). -/
def parse_time (s : Str) : Option Nat :=
  let t := pyStrip s
  if t = [] then none
  else
    let dayRest : Option Nat × Str :=
      match splitFirst '-' t with
      | some (d, r) => (pyIntDigits? d, r)
      | none => (some 0, t)
    match dayRest.1 with
    | none => none
    | some days =>
      match splitOnChar ':' dayRest.2 with
      | [a] => (pyIntDigits? a).map (fun x => days * 86400 + x)
      | [a, b] =>
        match pyIntDigits? a, pyIntDigits? b with
        | some x, some y => some (days * 86400 + x * 60 + y)
        | _, _ => none
      | [a, b, c] =>
        match pyIntDigits? a, pyIntDigits? b, pyIntDigits? c with
        | some x, some y, some z => some (days * 86400 + x * 3600 + y * 60 + z)
        | _, _, _ => none
      | _ => none

/-- `validators.format_time`: render seconds as `HH:MM:SS`, or
`D-HH:MM:SS` when at least one day.  The source raises on negative input;
the embedding takes the nonnegative domain `Nat`. -/
def format_time (seconds : Nat) : Str :=
  let days := seconds / 86400
  let rem := seconds % 86400
  let hours := rem / 3600
  let rem2 := rem % 3600
  let minutes := rem2 / 60
  let secs := rem2 % 60
  if days ≠ 0 then
    natToChars days ++ '-' :: (pad2 hours ++ ':' :: (pad2 minutes ++ ':' :: pad2 secs))
  else
    pad2 hours ++ ':' :: (pad2 minutes ++ ':' :: pad2 secs)

/-- Value of a digit run, as accumulated by Python's `int` (used below for
regex digit groups, which are digit runs by construction). -/
def digitsVal (l : Str) : Nat :=
  l.foldl (fun a c => a * 10 + (c.toNat - 48)) 0

/-- The multiplier table `validators._MEM_MULTIPLIERS` (suffix → factor
relative to megabytes).  Python stores floats; `1/1024` is exactly
representable in binary floating point, so `ℚ` agrees on these values. -/
def memMultiplier (suffix : Option Char) : ℚ :=
  match suffix with
  | none => 1
  | some 'K' => 1 / 1024
  | some 'M' => 1
  | some 'G' => 1024
  | some 'T' => 1024 * 1024
  | some _ => 1

/-- The regex `^\s*(\d+)\s*([KMGT]?)B?\s*$` of `validators._MEM_RE`
(case-insensitive), as a parser returning the digit group and the
upper-cased suffix group (`none` for the empty suffix).  The regex is
greedy with no observable backtracking: after `\d+` a leading `K/M/G/T`
can only be consumed by the suffix group. -/
def memMatch (l : Str) : Option (Str × Option Char) :=
  let l1 := l.dropWhile isPySpace
  let digits := l1.takeWhile Char.isDigit
  let rest1 := l1.dropWhile Char.isDigit
  if digits = [] then none
  else
    let rest2 := rest1.dropWhile isPySpace
    let sufRest : Option Char × Str :=
      match rest2 with
      | c :: cs =>
        if c.toUpper = 'K' ∨ c.toUpper = 'M' ∨ c.toUpper = 'G' ∨ c.toUpper = 'T'
        then (some c.toUpper, cs)
        else (none, rest2)
      | [] => (none, [])
    let rest3 : Str :=
      match sufRest.2 with
      | c :: cs => if c.toUpper = 'B' then cs else sufRest.2
      | [] => []
    if rest3.all isPySpace then some (digits, sufRest.1) else none

/-- `validators.parse_memory`: parse a memory string like `"4G"` into
megabytes.  `int(value * mult)` truncates toward zero; the operand is
nonnegative, so this is the floor.  `none` models the `ValueError` on a
non-matching string. -/
def parse_memory (l : Str) : Option Nat :=
  match memMatch l with
  | none => none
  | some (digits, suffix) =>
    some (max 1 (⌊(digitsVal digits : ℚ) * memMultiplier suffix⌋.toNat))

/-! ### `slurm_term/slurm_api.py` — job-id validation and actions -/

/-- The regex `^\d+(_\d+)?$` of `slurm_api._JOB_ID_RE` as a Boolean
matcher: one digit run, optionally followed by an underscore and a second
digit run. -/
def matchJobId (l : Str) : Bool :=
  let ds := l.takeWhile Char.isDigit
  let rest := l.dropWhile Char.isDigit
  if ds = [] then false
  else
    match rest with
    | [] => true
    | '_' :: tl => if tl = [] then false else tl.all Char.isDigit
    | _ => false

/-- `slurm_api._validate_job_id`: strip, then match against
`_JOB_ID_RE`; `none` models the `ValueError` on a non-matching id.
(`str(job_id)` is the identity on the string inputs considered here.) -/
def _validate_job_id (job_id : Str) : Option Str :=
  let j := pyStrip job_id
  if matchJobId j then some j else none

/-- `SlurmController.cancel_job`: validates, then invokes
`scancel <id>`.  The value returned here is the argv list handed to
`subprocess.run`; `none` models the `ValueError` raised before any
external invocation.  The Boolean result of the real call depends on the
external environment and is not modelled. -/
def cancel_job (job_id : Str) : Option (List Str) :=
  (_validate_job_id job_id).map (fun j => ["scancel".toList, j])

/-- `SlurmController.hold_job`: validates, then invokes
`scontrol hold <id>` (same reading as `cancel_job`). -/
def hold_job (job_id : Str) : Option (List Str) :=
  (_validate_job_id job_id).map (fun j => ["scontrol".toList, "hold".toList, j])

/-- `SlurmController.release_job`: validates, then invokes
`scontrol release <id>` (same reading as `cancel_job`). -/
def release_job (job_id : Str) : Option (List Str) :=
  (_validate_job_id job_id).map (fun j => ["scontrol".toList, "release".toList, j])

/-! ### `slurm_term/screens/inspector.py` — metric parsing -/

/-- Python `float(s)` on plain decimal literals `[+-]digits[.digits]`,
embedded in `ℚ`.  (Python's `float` also accepts exponents, `inf`/`nan`
and surrounding whitespace, and rounds to binary — none of which affects
the clamping facts proved here, which hold for every parse result.) -/
def pyFloat? (l : Str) : Option ℚ :=
  let signRest : Bool × Str :=
    match l with
    | '-' :: cs => (true, cs)
    | '+' :: cs => (false, cs)
    | _ => (false, l)
  let ip := signRest.2.takeWhile Char.isDigit
  let rest := signRest.2.dropWhile Char.isDigit
  let sign : ℚ := if signRest.1 then -1 else 1
  match rest with
  | [] => if ip = [] then none else some (sign * (digitsVal ip : ℚ))
  | '.' :: fp =>
    if fp.all Char.isDigit ∧ (ip ≠ [] ∨ fp ≠ []) then
      some (sign * ((digitsVal ip : ℚ) + (digitsVal fp : ℚ) / 10 ^ fp.length))
    else none
  | _ => none

/-- `inspector._parse_duration_to_seconds`: parse `[D-]HH:MM:SS[.fff]`
(or `MM:SS[.fff]`) to seconds; every failure path returns `0.0`. -/
def _parse_duration_to_seconds (duration : Str) : ℚ :=
  if duration = [] then 0
  else
    let rest0 := pyStrip duration
    let dayRest : Option (Nat × Str) :=
      match splitFirst '-' rest0 with
      | some (dp, r) =>
        match pyIntDigits? dp with
        | some d => some (d, r)
        | none => none
      | none => some (0, rest0)
    match dayRest with
    | none => 0
    | some (days, rest) =>
      match splitOnChar ':' rest with
      | [a, b, c] =>
        match pyIntDigits? a, pyIntDigits? b, pyFloat? c with
        | some h, some m, some s =>
          (days : ℚ) * 86400 + (h : ℚ) * 3600 + (m : ℚ) * 60 + s
        | _, _, _ => 0
      | [a, b] =>
        match pyIntDigits? a, pyFloat? b with
        | some m, some s => (days : ℚ) * 86400 + (m : ℚ) * 60 + s
        | _, _ => 0
      | _ => 0

/-- `inspector._parse_cpu_pct`: a trailing-`%` value is clamped to 100;
otherwise the string is read as a Slurm duration and converted to
`cpu_seconds / elapsed_seconds * 100` (clamped to 100) when both are
positive, else `0.0`. -/
def _parse_cpu_pct (cpu_str : Str) (elapsed_seconds : ℚ) : ℚ :=
  if cpu_str = [] then 0
  else
    let t := pyStrip cpu_str
    if t.getLast? = some '%' then
      match pyFloat? t.dropLast with
      | some v => min 100 v
      | none => 0
    else
      let cpu_seconds := _parse_duration_to_seconds t
      if 0 < cpu_seconds ∧ 0 < elapsed_seconds then
        min 100 (cpu_seconds / elapsed_seconds * 100)
      else 0

/-! ### Digit-string lemmas for the round-trip law -/

theorem digit_toNat {d : Nat} (h : d < 10) : (Char.ofNat (48 + d)).toNat = 48 + d := by
  interval_cases d <;> decide

theorem digit_isDigit {d : Nat} (h : d < 10) : (Char.ofNat (48 + d)).isDigit = true := by
  interval_cases d <;> decide

theorem natToChars_all_digit (n : Nat) : ∀ c ∈ natToChars n, c.isDigit = true := by
  induction n using Nat.strong_induction_on with
  | _ n ih =>
    intro c hc
    rw [natToChars_eq] at hc
    by_cases hn : n < 10
    · rw [if_pos hn] at hc
      simp only [List.mem_singleton] at hc
      exact hc ▸ digit_isDigit hn
    · rw [if_neg hn] at hc
      rcases List.mem_append.mp hc with h1 | h1
      · exact ih (n / 10) (Nat.div_lt_self (by omega) (by omega)) c h1
      · simp only [List.mem_singleton] at h1
        exact h1 ▸ digit_isDigit (Nat.mod_lt _ (by omega))

theorem natToChars_ne_nil (n : Nat) : natToChars n ≠ [] := by
  rw [natToChars_eq]
  by_cases hn : n < 10 <;> simp [hn]

theorem natToChars_foldl (n : Nat) :
    ∀ a, (natToChars n).foldl (fun a c => a * 10 + (c.toNat - 48)) a =
      a * 10 ^ (natToChars n).length + n := by
  induction n using Nat.strong_induction_on with
  | _ n ih =>
    intro a
    rw [natToChars_eq]
    by_cases hn : n < 10
    · simp only [if_pos hn, List.foldl_cons, List.foldl_nil, List.length_singleton,
        pow_one, digit_toNat hn]
      omega
    · have hdiv : n / 10 < n := Nat.div_lt_self (by omega) (by omega)
      simp only [if_neg hn, List.foldl_append, List.foldl_cons, List.foldl_nil,
        List.length_append, List.length_singleton]
      rw [ih (n / 10) hdiv a, digit_toNat (Nat.mod_lt _ (show 0 < 10 by omega)),
        pow_succ, ← mul_assoc]
      omega

theorem pyIntDigits?_natToChars (n : Nat) : pyIntDigits? (natToChars n) = some n := by
  unfold pyIntDigits?
  rw [if_pos]
  · rw [natToChars_foldl n 0]
    simp
  · exact ⟨natToChars_ne_nil n, List.all_eq_true.mpr (natToChars_all_digit n)⟩

theorem pad2_all_digit (n : Nat) : ∀ c ∈ pad2 n, c.isDigit = true := by
  intro c hc
  unfold pad2 at hc
  by_cases hn : n < 10
  · rw [if_pos hn] at hc
    rcases List.mem_cons.mp hc with h1 | h1
    · subst h1; decide
    · exact natToChars_all_digit n c h1
  · rw [if_neg hn] at hc
    exact natToChars_all_digit n c hc

theorem pad2_ne_nil (n : Nat) : pad2 n ≠ [] := by
  unfold pad2
  by_cases hn : n < 10
  · simp [hn]
  · simp only [if_neg hn]
    exact natToChars_ne_nil n

theorem pyIntDigits?_pad2 (n : Nat) : pyIntDigits? (pad2 n) = some n := by
  unfold pad2
  by_cases hn : n < 10
  · rw [if_pos hn]
    unfold pyIntDigits?
    rw [if_pos]
    · simp only [List.foldl_cons]
      have h0 : (0 : Nat) * 10 + ('0'.toNat - 48) = 0 := by decide
      rw [h0, natToChars_foldl n 0]
      simp
    · constructor
      · simp
      · rw [List.all_eq_true]
        intro c hc
        rcases List.mem_cons.mp hc with h1 | h1
        · subst h1; decide
        · exact natToChars_all_digit n c h1
  · rw [if_neg hn]
    exact pyIntDigits?_natToChars n

/-! ### Split / strip lemmas -/

theorem splitFirst_eq_none {sep : Char} {l : Str} (h : sep ∉ l) :
    splitFirst sep l = none := by
  induction l with
  | nil => rfl
  | cons c cs ih =>
    simp only [List.mem_cons, not_or] at h
    simp [splitFirst, if_neg (Ne.symm h.1), ih h.2]

theorem splitFirst_append {sep : Char} {a b : Str} (h : sep ∉ a) :
    splitFirst sep (a ++ sep :: b) = some (a, b) := by
  induction a with
  | nil => simp [splitFirst]
  | cons c cs ih =>
    simp only [List.mem_cons, not_or] at h
    simp [List.cons_append, splitFirst, if_neg (Ne.symm h.1), List.append_eq, ih h.2]

theorem splitOnChar_ne_nil (sep : Char) (l : Str) : splitOnChar sep l ≠ [] := by
  cases l with
  | nil => simp [splitOnChar]
  | cons c cs =>
    simp only [splitOnChar]
    rcases hm : splitOnChar sep cs with _ | ⟨h, t⟩
    · simp
    · by_cases hc : c = sep <;> simp [hc]

theorem splitOnChar_no_sep {sep : Char} {l : Str} (h : sep ∉ l) :
    splitOnChar sep l = [l] := by
  induction l with
  | nil => rfl
  | cons c cs ih =>
    simp only [List.mem_cons, not_or] at h
    simp only [splitOnChar, ih h.2, if_neg (Ne.symm h.1)]

theorem splitOnChar_append {sep : Char} {a b : Str} (h : sep ∉ a) :
    splitOnChar sep (a ++ sep :: b) = a :: splitOnChar sep b := by
  induction a with
  | nil =>
    simp only [List.nil_append, splitOnChar]
    rcases hm : splitOnChar sep b with _ | ⟨hd, tl⟩
    · exact absurd hm (splitOnChar_ne_nil sep b)
    · simp
  | cons c cs ih =>
    simp only [List.mem_cons, not_or] at h
    simp only [List.cons_append, splitOnChar, List.append_eq, ih h.2,
      if_neg (Ne.symm h.1)]

theorem dropWhile_of_all_false {p : Char → Bool} {l : Str}
    (h : ∀ c ∈ l, p c = false) : l.dropWhile p = l := by
  cases l with
  | nil => rfl
  | cons c cs => simp [List.dropWhile_cons, h c (by simp)]

theorem pyStrip_of_no_space {l : Str} (h : ∀ c ∈ l, isPySpace c = false) :
    pyStrip l = l := by
  unfold pyStrip
  rw [dropWhile_of_all_false h,
    dropWhile_of_all_false (fun c hc => h c (List.mem_reverse.mp hc)),
    List.reverse_reverse]

theorem isDigit_not_space {c : Char} (h : c.isDigit = true) : isPySpace c = false := by
  cases hps : isPySpace c
  · rfl
  · exfalso
    simp only [isPySpace, Bool.or_eq_true, decide_eq_true_eq, or_assoc] at hps
    rcases hps with h1 | h1 | h1 | h1 | h1 | h1 <;> subst h1 <;> exact absurd h (by decide)

theorem isDigit_ne_dash {c : Char} (h : c.isDigit = true) : c ≠ '-' := by
  intro heq; subst heq; exact absurd h (by decide)

theorem isDigit_ne_colon {c : Char} (h : c.isDigit = true) : c ≠ ':' := by
  intro heq; subst heq; exact absurd h (by decide)

theorem pad2_no_colon (n : Nat) : (':' : Char) ∉ pad2 n := fun hmem =>
  absurd (pad2_all_digit n ':' hmem) (by decide)

theorem hms_chars (h m s : Nat) :
    ∀ c ∈ pad2 h ++ ':' :: (pad2 m ++ ':' :: pad2 s), c.isDigit = true ∨ c = ':' := by
  intro c hc
  simp only [List.mem_append, List.mem_cons] at hc
  rcases hc with h1 | h1 | h1 | h1 | h1
  · exact Or.inl (pad2_all_digit h c h1)
  · exact Or.inr h1
  · exact Or.inl (pad2_all_digit m c h1)
  · exact Or.inr h1
  · exact Or.inl (pad2_all_digit s c h1)

theorem hms_split (h m s : Nat) :
    splitOnChar ':' (pad2 h ++ ':' :: (pad2 m ++ ':' :: pad2 s)) =
      [pad2 h, pad2 m, pad2 s] := by
  rw [splitOnChar_append (pad2_no_colon h), splitOnChar_append (pad2_no_colon m),
    splitOnChar_no_sep (pad2_no_colon s)]

theorem hms_no_space (h m s : Nat) :
    ∀ c ∈ pad2 h ++ ':' :: (pad2 m ++ ':' :: pad2 s), isPySpace c = false := by
  intro c hc
  rcases hms_chars h m s c hc with hd | he
  · exact isDigit_not_space hd
  · rw [he]; decide

theorem hms_no_dash (h m s : Nat) :
    ('-' : Char) ∉ pad2 h ++ ':' :: (pad2 m ++ ':' :: pad2 s) := by
  intro hmem
  rcases hms_chars h m s '-' hmem with hd | he
  · exact absurd hd (by decide)
  · exact absurd he (by decide)

/-- C4: for every non-negative integer `S`, parsing the rendered duration
string round-trips: `parse_time (format_time S) = S`, where `format_time`
renders seconds as `HH:MM:SS` (or `D-HH:MM:SS` when at least one day) and
`parse_time` maps the `SS`, `MM:SS`, `HH:MM:SS` and `D-HH:MM:SS` forms back
to a count of seconds; in particular this holds for
`S ∈ {0, 1, 60, 3661, 86400, 90061}`. -/
theorem claim_C4_roundtrip (S : Nat) : parse_time (format_time S) = some S := by
  simp only [format_time]
  by_cases hdz : S / 86400 = 0
  · simp only [hdz, ne_eq, not_true_eq_false, if_false]
    have hns := hms_no_space (S % 86400 / 3600) (S % 86400 % 3600 / 60) (S % 86400 % 3600 % 60)
    have hne : pad2 (S % 86400 / 3600) ++ ':' ::
        (pad2 (S % 86400 % 3600 / 60) ++ ':' :: pad2 (S % 86400 % 3600 % 60)) ≠ [] := by
      simp
    simp only [parse_time, pyStrip_of_no_space hns, hne, if_false,
      splitFirst_eq_none (hms_no_dash _ _ _), hms_split, pyIntDigits?_pad2,
      Option.some.injEq]
    omega
  · simp only [ne_eq, hdz, not_false_eq_true, if_true]
    have hnodashNat : ('-' : Char) ∉ natToChars (S / 86400) := fun hmem =>
      absurd (natToChars_all_digit _ '-' hmem) (by decide)
    have hns : ∀ c ∈ natToChars (S / 86400) ++ '-' ::
        (pad2 (S % 86400 / 3600) ++ ':' ::
          (pad2 (S % 86400 % 3600 / 60) ++ ':' :: pad2 (S % 86400 % 3600 % 60))),
        isPySpace c = false := by
      intro c hc
      simp only [List.mem_append, List.mem_cons] at hc
      rcases hc with h1 | h1 | h1
      · exact isDigit_not_space (natToChars_all_digit _ c h1)
      · rw [h1]; decide
      · exact hms_no_space _ _ _ c (by simpa using h1)
    have hne : natToChars (S / 86400) ++ '-' ::
        (pad2 (S % 86400 / 3600) ++ ':' ::
          (pad2 (S % 86400 % 3600 / 60) ++ ':' :: pad2 (S % 86400 % 3600 % 60))) ≠ [] := by
      simp
    simp only [parse_time, pyStrip_of_no_space hns, hne, if_false,
      splitFirst_append hnodashNat, pyIntDigits?_natToChars, hms_split,
      pyIntDigits?_pad2, Option.some.injEq]
    omega

/-! ### C10 — parse_memory lower bound -/

/-- C10: for every syntactically valid memory string, `parse_memory`
returns an integer megabyte count of at least 1, including zero-valued
inputs: `"0"`, `"0M"` and `"0G"` all parse to `1` rather than `0` or an
error (zero is silently coerced up to one megabyte, not rejected). -/
theorem claim_C10_memory_min_one :
    (∀ s n, parse_memory s = some n → 1 ≤ n) ∧
    parse_memory ("0".toList) = some 1 ∧
    parse_memory ("0M".toList) = some 1 ∧
    parse_memory ("0G".toList) = some 1 := by
  refine ⟨?_, ?_, ?_, ?_⟩
  · intro s n h
    unfold parse_memory at h
    rcases hm : memMatch s with _ | ⟨digits, suffix⟩ <;> rw [hm] at h
    · exact absurd h (by simp)
    · simp only [Option.some.injEq] at h
      omega
  · unfold parse_memory
    rw [show memMatch ("0".toList) = some ("0".toList, Option.none) from by decide]
    dsimp only
    rw [show digitsVal ("0".toList) = 0 from by decide]
    norm_num [memMultiplier]
  · unfold parse_memory
    rw [show memMatch ("0M".toList) = some ("0".toList, some 'M') from by decide]
    dsimp only
    rw [show digitsVal ("0".toList) = 0 from by decide]
    norm_num [memMultiplier]
  · unfold parse_memory
    rw [show memMatch ("0G".toList) = some ("0".toList, some 'G') from by decide]
    dsimp only
    rw [show digitsVal ("0".toList) = 0 from by decide]
    norm_num [memMultiplier]

/-- C10 witness: a concrete valid input on which the universal part of the
claim applies. -/
theorem claim_C10_witness :
    parse_memory ("512M".toList) = some 512 ∧ 1 ≤ 512 := by
  have h : parse_memory ("512M".toList) = some 512 := by
    unfold parse_memory
    rw [show memMatch ("512M".toList) = some ("512".toList, some 'M') from by decide]
    dsimp only
    rw [show digitsVal ("512".toList) = 512 from by decide]
    norm_num [memMultiplier]
    decide
  exact ⟨h, claim_C10_memory_min_one.1 _ 512 h⟩

/-! ### C8 — job-id validation before actions -/

theorem matchJobId_chars {l : Str} (h : matchJobId l = true) :
    ∀ c ∈ l, c.isDigit = true ∨ c = '_' := by
  intro c hc
  simp only [matchJobId] at h
  split at h
  · exact absurd h (by simp)
  · conv at hc => rw [← List.takeWhile_append_dropWhile (p := Char.isDigit) (l := l)]
    rcases List.mem_append.mp hc with h1 | h1
    · exact Or.inl (List.mem_takeWhile_imp h1)
    · split at h
      · next heq => rw [heq] at h1; simp at h1
      · next tl heq =>
        rw [heq] at h1
        rcases List.mem_cons.mp h1 with h2 | h2
        · exact Or.inr h2
        · split at h
          · exact absurd h (by simp)
          · exact Or.inl (List.all_eq_true.mp h c h2)
      · next => exact absurd h (by simp)

theorem matchJobId_strip {l : Str} (h : matchJobId l = true) : pyStrip l = l :=
  pyStrip_of_no_space fun c hc => by
    rcases matchJobId_chars h c hc with hd | he
    · exact isDigit_not_space hd
    · rw [he]; decide

/-- C8 counterexample: the string `" 123 "` does not match
`^\d+(_\d+)?$` (the regex is anchored and `\d`/`_` admit no whitespace),
yet none of the three action methods raises on it: the id is stripped
first and `scancel`/`scontrol` is invoked with `"123"`. -/
theorem claim_C8_counterexample :
    matchJobId (" 123 ".toList) = false ∧
    cancel_job (" 123 ".toList) = some ["scancel".toList, "123".toList] ∧
    hold_job (" 123 ".toList) =
      some ["scontrol".toList, "hold".toList, "123".toList] ∧
    release_job (" 123 ".toList) =
      some ["scontrol".toList, "release".toList, "123".toList] := by
  decide

/-- C8 amended: the id is stripped of surrounding whitespace first；each
action raises `ValueError` (and invokes no external command) exactly when
the stripped string fails `^\d+(_\d+)?$`, and otherwise invokes its
command with the stripped id; a string that itself matches the pattern
contains no whitespace, so it is passed through unchanged. -/
theorem claim_C8_amended (s : Str) :
    cancel_job s = (if matchJobId (pyStrip s) then
      some ["scancel".toList, pyStrip s] else none) ∧
    hold_job s = (if matchJobId (pyStrip s) then
      some ["scontrol".toList, "hold".toList, pyStrip s] else none) ∧
    release_job s = (if matchJobId (pyStrip s) then
      some ["scontrol".toList, "release".toList, pyStrip s] else none) ∧
    (matchJobId s = true → pyStrip s = s) := by
  refine ⟨?_, ?_, ?_, fun h => matchJobId_strip h⟩
  · unfold cancel_job _validate_job_id
    by_cases hm : matchJobId (pyStrip s) <;> simp [hm]
  · unfold hold_job _validate_job_id
    by_cases hm : matchJobId (pyStrip s) <;> simp [hm]
  · unfold release_job _validate_job_id
    by_cases hm : matchJobId (pyStrip s) <;> simp [hm]

/-- C8 witness: a matching array-task id passes through unchanged and is
handed to `scancel` verbatim. -/
theorem claim_C8_witness :
    pyStrip ("12_3".toList) = "12_3".toList ∧
    cancel_job ("12_3".toList) = some ["scancel".toList, "12_3".toList] := by
  have h := claim_C8_amended ("12_3".toList)
  have hs : pyStrip ("12_3".toList) = "12_3".toList := h.2.2.2 (by decide)
  refine ⟨hs, ?_⟩
  rw [h.1, hs, if_pos (show matchJobId ("12_3".toList) = true from by decide)]

/-! ### C9 — CPU-percentage clamping -/

/-- C9: for every CPU string parsed in duration form with positive elapsed
time, the computed percentage is clamped to at most `100`: when the parsed
`cpu_seconds` exceeds `elapsed_seconds` the result is exactly `100` rather
than `cpu_seconds / elapsed_seconds * 100`; and the result never exceeds
`100` on any input, including the literal trailing-`%` form. -/
theorem claim_C9_cpu_clamp :
    (∀ cs e, _parse_cpu_pct cs e ≤ 100) ∧
    (∀ cs e, 0 < e → (pyStrip cs).getLast? ≠ some '%' →
      e < _parse_duration_to_seconds (pyStrip cs) → _parse_cpu_pct cs e = 100) := by
  constructor
  · intro cs e
    unfold _parse_cpu_pct
    by_cases h0 : cs = []
    · simp [h0]
    · simp only [h0, if_false]
      by_cases hp : (pyStrip cs).getLast? = some '%'
      · rw [if_pos hp]
        rcases pyFloat? (pyStrip cs).dropLast with _ | v
        · show (0 : ℚ) ≤ 100
          norm_num
        · show min 100 v ≤ 100
          exact min_le_left _ _
      · rw [if_neg hp]
        by_cases hc : 0 < _parse_duration_to_seconds (pyStrip cs) ∧ 0 < e
        · rw [if_pos hc]; exact min_le_left _ _
        · rw [if_neg hc]; norm_num
  · intro cs e he hp hlt
    have h0 : cs ≠ [] := by
      intro h
      rw [h] at hlt
      have : _parse_duration_to_seconds (pyStrip []) = 0 := rfl
      rw [this] at hlt
      exact absurd (lt_trans he hlt) (lt_irrefl 0)
    unfold _parse_cpu_pct
    simp only [h0, if_false]
    rw [if_neg hp, if_pos ⟨lt_trans he hlt, he⟩]
    have h1 : (1 : ℚ) < _parse_duration_to_seconds (pyStrip cs) / e :=
      (one_lt_div he).mpr hlt
    have h100 : (100 : ℚ) ≤ _parse_duration_to_seconds (pyStrip cs) / e * 100 := by
      nlinarith
    exact min_eq_left h100

/-- C9 witness: one hour of CPU time against one minute of wall time is
reported as exactly 100 percent. -/
theorem claim_C9_witness :
    _parse_cpu_pct ("01:00:00".toList) 60 = 100 := by
  have hs : pyStrip ("01:00:00".toList) = "01:00:00".toList := by decide
  have hd : _parse_duration_to_seconds ("01:00:00".toList) = 3600 := by
    simp only [_parse_duration_to_seconds]
    rw [if_neg (show ¬("01:00:00".toList : Str) = [] from by decide),
      show pyStrip ("01:00:00".toList) = "01:00:00".toList from by decide,
      show splitFirst '-' ("01:00:00".toList) = none from by decide]
    dsimp only
    rw [show splitOnChar ':' ("01:00:00".toList) =
        ["01".toList, "00".toList, "00".toList] from by decide]
    dsimp only
    rw [show pyIntDigits? ("01".toList) = some 1 from by decide,
      show pyIntDigits? ("00".toList) = some 0 from by decide,
      show pyFloat? ("00".toList) = some 0 from by simp +decide [pyFloat?]]
    dsimp only
    norm_num
  exact claim_C9_cpu_clamp.2 ("01:00:00".toList) 60 (by norm_num)
    (by rw [hs]; decide) (by rw [hs, hd]; norm_num)

/-! ### C5 — notification classification (`MonitorTab._update_table`) -/

/-- The job lifecycle states enumerated by the spec (§3 `JobState`). -/
inductive JobState
  | PENDING | PENDING_HELD | RUNNING | COMPLETING | SUSPENDED | COMPLETED
  | FAILED | TIMEOUT | CANCELLED | NODE_FAIL | PREEMPTED | OUT_OF_MEMORY | UNKNOWN
deriving DecidableEq, Fintype, Repr

/-- The canonical (upper-case) state string the external source reports. -/
def JobState.name : JobState → Str
  | .PENDING => "PENDING".toList
  | .PENDING_HELD => "PENDING_HELD".toList
  | .RUNNING => "RUNNING".toList
  | .COMPLETING => "COMPLETING".toList
  | .SUSPENDED => "SUSPENDED".toList
  | .COMPLETED => "COMPLETED".toList
  | .FAILED => "FAILED".toList
  | .TIMEOUT => "TIMEOUT".toList
  | .CANCELLED => "CANCELLED".toList
  | .NODE_FAIL => "NODE_FAIL".toList
  | .PREEMPTED => "PREEMPTED".toList
  | .OUT_OF_MEMORY => "OUT_OF_MEMORY".toList
  | .UNKNOWN => "UNKNOWN".toList

/-- Result of the notification classification. -/
inductive NotifyKind
  | none | completed | failed
deriving DecidableEq, Repr

/-- The terminal-failure state tuple of monitor.py line 208:
`("FAILED", "TIMEOUT", "NODE_FAIL", "OUT_OF_MEMORY")`. -/
def failureStates : List Str :=
  ["FAILED".toList, "TIMEOUT".toList, "NODE_FAIL".toList, "OUT_OF_MEMORY".toList]

/-- The notification classification performed inline in
`MonitorTab._update_table` (monitor.py, state-change detection), extracted
as the pure function the spec describes: both states are upper-cased; if
they differ, `completed` when the new state is `COMPLETED` (and completion
notifications are enabled), `failed` when the new state is a
terminal-failure state (and failure notifications are enabled), else
nothing.  The two config flags gate dispatch in the source; the claim
instantiates both to `true`. -/
def classify (notifyComplete notifyFail : Bool) (oldState newState : Str) : NotifyKind :=
  let o := pyUpper oldState
  let n := pyUpper newState
  if o ≠ n then
    if n = "COMPLETED".toList ∧ notifyComplete = true then .completed
    else if n ∈ failureStates ∧ notifyFail = true then .failed
    else .none
  else .none

/-- C5: for every pair of job states, classification (with both
notification kinds enabled) returns `completed` iff the new state is
`COMPLETED` and the old state differed, `failed` iff the new state is in
{FAILED, TIMEOUT, NODE_FAIL, OUT_OF_MEMORY} and the old state differed,
and `none` otherwise; in particular `classify RUNNING CANCELLED = none`
and `classify PENDING RUNNING = none`. -/
theorem claim_C5_classification :
    (∀ o n : JobState,
      (classify true true o.name n.name = .completed ↔
        (n = .COMPLETED ∧ o ≠ n)) ∧
      (classify true true o.name n.name = .failed ↔
        (n ∈ [JobState.FAILED, .TIMEOUT, .NODE_FAIL, .OUT_OF_MEMORY] ∧ o ≠ n)) ∧
      (classify true true o.name n.name = .none ↔
        (¬(n = .COMPLETED ∧ o ≠ n) ∧
         ¬(n ∈ [JobState.FAILED, .TIMEOUT, .NODE_FAIL, .OUT_OF_MEMORY] ∧ o ≠ n)))) ∧
    classify true true JobState.RUNNING.name JobState.CANCELLED.name = .none ∧
    classify true true JobState.PENDING.name JobState.RUNNING.name = .none := by
  decide

/-! ### C7 — metrics rolling window (`InspectorTab._update_metrics`) -/

/-- Fuel-driven form of the eviction loop
`while len(hist) > METRICS_ROLLING_WINDOW: hist.pop(0)` (capacity 60),
structural so that concrete windows reduce in the kernel; `trimWindow`
supplies ample fuel. -/
def trimWindowAux : Nat → List ℚ → List ℚ
  | 0, l => l
  | fuel + 1, l => if l.length > 60 then trimWindowAux fuel l.tail else l

/-- The eviction loop of `InspectorTab._update_metrics` (the mock
simulator's `_tick` performs the same eviction with an `if`, equivalent
because exactly one sample is appended per tick). -/
def trimWindow (l : List ℚ) : List ℚ := trimWindowAux l.length l

/-- One `hist.append(val)` followed by the eviction loop, per channel. -/
def metricsAppend (hist : List ℚ) (x : ℚ) : List ℚ := trimWindow (hist ++ [x])

theorem trimWindowAux_drop :
    ∀ (fuel : Nat) (l : List ℚ), l.length ≤ 60 + fuel →
      trimWindowAux fuel l = l.drop (l.length - 60) := by
  intro fuel
  induction fuel with
  | zero =>
    intro l hl
    simp only [Nat.add_zero] at hl
    have : l.length - 60 = 0 := by omega
    rw [this, List.drop_zero]
    rfl
  | succ f ih =>
    intro l hl
    by_cases hlen : l.length > 60
    · have htail : l.tail.length = l.length - 1 := List.length_tail l
      rw [trimWindowAux, if_pos hlen, ih l.tail (by omega), htail,
        ← List.drop_one, List.drop_drop]
      congr 1
      omega
    · rw [trimWindowAux, if_neg hlen]
      have : l.length - 60 = 0 := by omega
      rw [this, List.drop_zero]

theorem trimWindow_drop (l : List ℚ) : trimWindow l = l.drop (l.length - 60) :=
  trimWindowAux_drop l.length l (by omega)

/-- The fold of `metricsAppend` from the empty window keeps exactly the
last 60 samples, in order. -/
theorem metricsFold_drop (samples : List ℚ) :
    samples.foldl metricsAppend [] = samples.drop (samples.length - 60) := by
  induction samples using List.reverseRecOn with
  | nil => rfl
  | append_singleton ys x ih =>
    rw [List.foldl_append, List.foldl_cons, List.foldl_nil, ih]
    unfold metricsAppend
    rw [trimWindow_drop]
    rcases le_or_lt ys.length 60 with hle | hlt
    · have h0 : ys.length - 60 = 0 := by omega
      rw [h0, List.drop_zero]
    · have hA : (ys.drop (ys.length - 60)).length = 60 := by
        rw [List.length_drop]; omega
      rw [List.length_append, hA, List.length_singleton]
      have hidx : (60 + 1 : Nat) - 60 = 1 := rfl
      rw [hidx, List.drop_append_eq_append_drop, List.drop_drop, hA]
      have h10 : (1 : Nat) - 60 = 0 := rfl
      rw [h10, List.drop_zero]
      rw [List.length_append, List.length_singleton, List.drop_append_eq_append_drop]
      have h20 : ys.length + 1 - 60 - ys.length = 0 := by omega
      rw [h20, List.drop_zero]
      have h30 : ys.length - 60 + 1 = ys.length + 1 - 60 := by omega
      rw [h30]

/-- C7: for every sequence of metric-sample appends to a per-channel
rolling window of capacity 60, the window length never exceeds 60 after
any append (the fold quantifies over all such sequences, hence over every
intermediate state), and after more than 60 appends the window holds
exactly the 60 most recent samples in arrival order (FIFO, oldest evicted
first). -/
theorem claim_C7_metrics_window :
    (∀ samples : List ℚ, (samples.foldl metricsAppend []).length ≤ 60) ∧
    (∀ samples : List ℚ, 60 < samples.length →
      samples.foldl metricsAppend [] = samples.drop (samples.length - 60)) := by
  constructor
  · intro samples
    rw [metricsFold_drop, List.length_drop]
    omega
  · intro samples _
    exact metricsFold_drop samples

/-- C7 witness: sixty-one appends leave exactly the last sixty samples. -/
theorem claim_C7_witness :
    60 < (List.replicate 61 (0 : ℚ)).length ∧
    (List.replicate 61 (0 : ℚ)).foldl metricsAppend [] =
      (List.replicate 61 (0 : ℚ)).drop 1 := by
  have hl : (List.replicate 61 (0 : ℚ)).length = 61 := by simp
  refine ⟨by rw [hl]; omega, ?_⟩
  have h := claim_C7_metrics_window.2 (List.replicate 61 (0 : ℚ)) (by rw [hl]; omega)
  rw [h, hl]

/-! ### Monitor tab model (`MonitorTab`, C1 / C2 / C6)

The `DataTable` is external UI state; the model tracks its row keys (in
row order) and records the operations the diff-apply step issues against
it.  The seven `update_cell` calls the source performs per updated row are
recorded as a single `updateRow` operation for that row key. -/

/-- `slurm_api.JobInfo` restricted to the fields `MonitorTab` reads
(`user`, `work_dir`, the path and time fields and `extra` are never
consulted by the queue table or its diff). -/
structure JobInfo where
  job_id : Str
  name : Str
  partition : Str
  state : Str
  time_used : Str
  nodes : Str
  reason : Str
deriving DecidableEq, Repr

/-- The key list of a job map (Python `set(d)` / `d.keys()` iteration). -/
def keys (m : List JobInfo) : List Str := m.map (·.job_id)

/-- Python `d[k]` / `k in d` probing for the association-list job map. -/
def lookupJob (m : List JobInfo) (k : Str) : Option JobInfo :=
  m.find? (fun j => decide (j.job_id = k))

/-- One step of the dict comprehension `{j.job_id: j for j in jobs}`:
the first occurrence of a key fixes its position and the last value wins. -/
def upsert (m : List JobInfo) (j : JobInfo) : List JobInfo :=
  if j.job_id ∈ keys m then m.map (fun x => if x.job_id = j.job_id then j else x)
  else m ++ [j]

/-- The keyed snapshot `new_jobs = {j.job_id: j for j in jobs}`. -/
def mkJobMap (js : List JobInfo) : List JobInfo := js.foldl upsert []

/-- Python's `needle in hay` prefix probe. -/
def startsWithChars : Str → Str → Bool
  | _, [] => true
  | [], _ :: _ => false
  | c :: cs, n :: ns => decide (c = n) && startsWithChars cs ns

/-- Python's substring containment `needle in hay`. -/
def containsChars (hay needle : Str) : Bool :=
  match hay with
  | [] => needle.isEmpty
  | _ :: t => startsWithChars hay needle || containsChars t needle

/-- The filter predicate of `MonitorTab._filtered_jobs`: case-insensitive
substring match of the (pre-lowered) query against name, id, state and
partition. -/
def matchesQuery (q : Str) (j : JobInfo) : Bool :=
  containsChars (pyLower j.name) q || containsChars (pyLower j.job_id) q ||
    containsChars (pyLower j.state) q || containsChars (pyLower j.partition) q

/-- The view state owned by `MonitorTab`: the last-known job map
(`self._jobs`), the selected-id set (`self._selected`), the `DataTable`
row keys in row order, the active search query (`self._search_query`),
the config/notification flags, and whether the `set_interval` schedule
installed on mount is still active (nothing in the tick path ever stops
it; `scheduleActive` records that). -/
structure MonitorState where
  jobs : List JobInfo
  selected : Finset Str
  tableRows : List Str
  searchQuery : Str
  hasConfig : Bool
  notifyComplete : Bool
  notifyFail : Bool
  scheduleActive : Bool
deriving DecidableEq

/-- `MonitorTab._filtered_jobs`. -/
def filteredJobs (s : MonitorState) : List JobInfo :=
  if s.searchQuery = [] then s.jobs
  else s.jobs.filter (matchesQuery s.searchQuery)

/-- An operation issued against the `DataTable`. -/
inductive TableOp
  | clear
  | addRow (key : Str)
  | removeRow (key : Str)
  | updateRow (key : Str)
deriving DecidableEq, Repr

/-- A notification dispatched via `self.app.notify`. -/
inductive Notification
  | completed (jid : Str)
  | failed (jid : Str)
  | finishedGone (jid : Str)
deriving DecidableEq, Repr

/-- `MonitorTab._rebuild_table`: clear the table and re-add every row of
the filtered job map, in map order. -/
def rebuild (s : MonitorState) : MonitorState × List TableOp :=
  let filtered := filteredJobs s
  ({ s with tableRows := filtered.map (·.job_id) },
    TableOp.clear :: filtered.map (fun j => TableOp.addRow j.job_id))

/-- `MonitorTab._update_table jobs`: detect transitions for notification,
prune the selection, then either rebuild (filter active) or apply the
row-level remove/add/update operations against the displayed rows. -/
def updateTable (s : MonitorState) (jobsList : List JobInfo) :
    MonitorState × List TableOp × List Notification :=
  let newJobs := mkJobMap jobsList
  let notifs1 : List Notification :=
    if s.hasConfig = true ∧ s.jobs ≠ [] then
      newJobs.filterMap (fun nj =>
        match lookupJob s.jobs nj.job_id with
        | some oj =>
          match classify s.notifyComplete s.notifyFail oj.state nj.state with
          | .completed => some (.completed nj.job_id)
          | .failed => some (.failed nj.job_id)
          | .none => none
        | none => none)
    else []
  let notifs2 : List Notification :=
    if s.hasConfig = true ∧ s.notifyComplete = true then
      (s.jobs.filter (fun oj =>
        (lookupJob newJobs oj.job_id).isNone &&
          decide (pyUpper oj.state = "RUNNING".toList))).map
        (fun oj => .finishedGone oj.job_id)
    else []
  let selected2 := s.selected.filter (fun k => k ∈ keys newJobs)
  let s1 : MonitorState := { s with jobs := newJobs, selected := selected2 }
  if s.searchQuery ≠ [] then
    let r := rebuild s1
    (r.1, r.2, notifs1 ++ notifs2)
  else
    let removeOps := (s.tableRows.filter
      (fun k => decide (k ∉ keys newJobs))).map TableOp.removeRow
    let addUpdOps := newJobs.map (fun j =>
      if j.job_id ∈ s.tableRows then TableOp.updateRow j.job_id
      else TableOp.addRow j.job_id)
    let newRows := s.tableRows.filter (fun k => decide (k ∈ keys newJobs)) ++
      (newJobs.filter (fun j => decide (j.job_id ∉ s.tableRows))).map (·.job_id)
    ({ s1 with tableRows := newRows }, removeOps ++ addUpdOps, notifs1 ++ notifs2)

/-- Outcome of one `squeue --json` invocation, as `SlurmController._run`
reports it: the return code, and the entry list when the body parses
(`none` is the `json.JSONDecodeError` path; the per-entry field
normalization of `_parse_job_entry` is upstream of the claims). -/
structure SqueueResult where
  returncode : Int
  parsed : Option (List JobInfo)
deriving DecidableEq, Repr

/-- `SlurmController.get_queue`: non-zero exit → `[]`; unparseable body →
`[]`; otherwise the reported entries in order. -/
def get_queue (r : SqueueResult) : List JobInfo :=
  if r.returncode ≠ 0 then []
  else
    match r.parsed with
    | none => []
    | some js => js

/-- One poll tick: `_poll → _fetch_queue → _update_table(get_queue())`.
The `set_interval` schedule is untouched by this path. -/
def pollTick (s : MonitorState) (r : SqueueResult) :
    MonitorState × List TableOp × List Notification :=
  updateTable s (get_queue r)

/-- User/poller events that touch the selection or the job map. -/
inductive UAction
  | pollTickEv (r : SqueueResult)
  | toggleSelect (cursor : Nat)
  | selectAll
  | escapePressed
  | setSearch (q : Str)

/-- One event step of the monitor tab.  `toggleSelect` carries the cursor
row position; the id acted on is the key of that table row (the source
reads it via `coordinate_to_cell_key`), a no-op when out of range.
`escapePressed` clears a nonempty selection, else clears the search (the
source additionally requires search focus for the latter; the extra
rebuild is selection-neutral).  `setSearch` is `on_input_changed`:
`value.strip().lower()` then rebuild. -/
def ustep (s : MonitorState) : UAction → MonitorState
  | .pollTickEv r => (pollTick s r).1
  | .toggleSelect i =>
    match s.tableRows.get? i with
    | none => s
    | some jid =>
      let sel := if jid ∈ s.selected then s.selected.erase jid
        else insert jid s.selected
      (rebuild { s with selected := sel }).1
  | .selectAll =>
    let visible := ((filteredJobs s).map (·.job_id)).toFinset
    let sel := if visible ⊆ s.selected then (∅ : Finset Str) else visible
    (rebuild { s with selected := sel }).1
  | .escapePressed =>
    if s.selected ≠ ∅ then (rebuild { s with selected := ∅ }).1
    else (rebuild { s with searchQuery := [] }).1
  | .setSearch q => (rebuild { s with searchQuery := pyLower (pyStrip q) }).1

/-- The monitor tab as freshly mounted: empty job map, empty selection,
empty table, no filter, notifications configured on. -/
def monitorInit : MonitorState :=
  { jobs := [], selected := ∅, tableRows := [], searchQuery := [],
    hasConfig := true, notifyComplete := true, notifyFail := true,
    scheduleActive := true }

/-- A single running job, as a concrete snapshot entry. -/
def sampleJob : JobInfo :=
  { job_id := "1".toList, name := "train".toList, partition := "gpu".toList,
    state := "RUNNING".toList, time_used := "00:01:00".toList,
    nodes := "1".toList, reason := "None".toList }

/-- A one-job view whose table displays that job (no config object, so
notifications are off; no filter). -/
def oneJobState : MonitorState :=
  { jobs := [sampleJob], selected := ∅, tableRows := ["1".toList],
    searchQuery := [], hasConfig := false, notifyComplete := false,
    notifyFail := false, scheduleActive := true }

/-! ### C1 — failure handling of the queue poll -/

/-- C1 counterexample: with one job in the previous view, a failed fetch
(non-zero exit, here also an unparseable body) is applied as an empty
snapshot: the last-known job map and the table rows ARE cleared to empty,
contradicting the claimed retention of the previous view state. -/
theorem claim_C1_counterexample :
    oneJobState.jobs ≠ [] ∧ oneJobState.tableRows ≠ [] ∧
    (pollTick oneJobState ⟨1, none⟩).1.jobs = [] ∧
    (pollTick oneJobState ⟨1, none⟩).1.tableRows = [] := by
  decide

/-- C1 amended: on a failed queue fetch (non-zero exit, timeout — which
`_run` turns into return code 124 — or unparseable response) `get_queue`
returns an empty list indistinguishable from an empty queue; the Poller
applies it, clearing the job map and the table; the status line is
updated with the ordinary zero-job count rather than an error; and the
polling schedule is not stopped (nothing in the tick path cancels the
interval installed on mount). -/
theorem claim_C1_amended (s : MonitorState) (r : SqueueResult)
    (h : r.returncode ≠ 0 ∨ r.parsed = none) :
    (pollTick s r).1.jobs = [] ∧ (pollTick s r).1.tableRows = [] ∧
    (pollTick s r).1.scheduleActive = s.scheduleActive := by
  have hq : get_queue r = [] := by
    unfold get_queue
    rcases h with h | h
    · rw [if_pos h]
    · by_cases hrc : r.returncode ≠ 0
      · rw [if_pos hrc]
      · rw [if_neg hrc, h]
  unfold pollTick
  rw [hq]
  simp only [updateTable]
  by_cases hsq : s.searchQuery ≠ []
  · rw [if_pos hsq]
    simp [rebuild, filteredJobs, mkJobMap]
  · rw [if_neg hsq]
    simp [mkJobMap, keys]

/-- C1 witness: the amended behaviour at the concrete failing fetch. -/
theorem claim_C1_witness :
    (pollTick oneJobState ⟨1, none⟩).1.jobs = [] ∧
    (pollTick oneJobState ⟨1, none⟩).1.tableRows = [] ∧
    (pollTick oneJobState ⟨1, none⟩).1.scheduleActive = true := by
  have h := claim_C1_amended oneJobState ⟨1, none⟩ (Or.inl (by decide))
  exact ⟨h.1, h.2.1, h.2.2.trans rfl⟩

/-! ### C2 — no field-level elision in the diff-apply step -/

/-- C2 counterexample: old and new snapshots identical (the same single
job, no field changed, no filter active) — yet the diff-apply step emits
one update operation for the unchanged row instead of zero:
`_update_table` contains no comparison of the (state, time_used, reason,
nodes) tuple. -/
theorem claim_C2_counterexample :
    oneJobState.jobs = mkJobMap [sampleJob] ∧
    (updateTable oneJobState [sampleJob]).2.1 =
      [TableOp.updateRow ("1".toList)] ∧
    (updateTable oneJobState [sampleJob]).2.1 ≠ [] := by
  decide

theorem mem_keys_of_mem {m : List JobInfo} {j : JobInfo} (h : j ∈ m) :
    j.job_id ∈ keys m := List.mem_map_of_mem (·.job_id) h

/-- C2 amended: the diff-apply step elides nothing at field level.  With
no filter active, whenever every displayed row key is a key of the new
snapshot (in particular whenever the old and new keyed collections are
identical), it emits zero remove and zero add operations but one update
operation for every row of the new snapshot — regardless of whether the
compared field tuple changed. -/
theorem claim_C2_amended (s : MonitorState) (jobsList : List JobInfo)
    (hq : s.searchQuery = [])
    (hrows : s.tableRows = keys (mkJobMap jobsList)) :
    (updateTable s jobsList).2.1 =
      (mkJobMap jobsList).map (fun j => TableOp.updateRow j.job_id) := by
  simp only [updateTable]
  rw [if_neg (show ¬s.searchQuery ≠ [] from fun hne => hne hq)]
  dsimp only
  rw [hrows]
  have h1 : (keys (mkJobMap jobsList)).filter
      (fun k => decide (k ∉ keys (mkJobMap jobsList))) = [] := by
    rw [List.filter_eq_nil_iff]
    intro a ha
    simp [ha]
  rw [h1, List.map_nil, List.nil_append]
  apply List.map_congr_left
  intro j hj
  rw [if_pos (mem_keys_of_mem hj)]

/-- C2 witness: the amended statement applied to the identical one-job
snapshot — one update, no adds, no removes. -/
theorem claim_C2_witness :
    (updateTable oneJobState [sampleJob]).2.1 =
      (mkJobMap [sampleJob]).map (fun j => TableOp.updateRow j.job_id) :=
  claim_C2_amended oneJobState [sampleJob] rfl (by decide)

/-! ### C6 — selection-pruning invariant -/

/-- The invariant carried through every monitor event: both the selected
ids and the displayed row keys are keys of the current job map. -/
def selectionInvariant (s : MonitorState) : Prop :=
  (∀ k ∈ s.selected, k ∈ keys s.jobs) ∧ ∀ k ∈ s.tableRows, k ∈ keys s.jobs

theorem filteredJobs_subset (s : MonitorState) :
    ∀ j ∈ filteredJobs s, j ∈ s.jobs := by
  intro j hj
  unfold filteredJobs at hj
  by_cases hq : s.searchQuery = []
  · rw [if_pos hq] at hj; exact hj
  · rw [if_neg hq] at hj; exact List.mem_of_mem_filter hj

theorem rebuild_invariant {s : MonitorState}
    (hsel : ∀ k ∈ s.selected, k ∈ keys s.jobs) :
    selectionInvariant (rebuild s).1 := by
  constructor
  · intro k hk
    exact hsel k hk
  · intro k hk
    simp only [rebuild] at hk
    rcases List.mem_map.mp hk with ⟨j, hj, rfl⟩
    exact mem_keys_of_mem (filteredJobs_subset s j hj)

theorem updateTable_invariant (s : MonitorState) (jobsList : List JobInfo) :
    selectionInvariant (updateTable s jobsList).1 := by
  simp only [updateTable]
  by_cases hsq : s.searchQuery ≠ []
  · rw [if_pos hsq]
    apply rebuild_invariant
    intro k hk
    exact (Finset.mem_filter.mp hk).2
  · rw [if_neg hsq]
    constructor
    · intro k hk
      exact (Finset.mem_filter.mp hk).2
    · intro k hk
      rcases List.mem_append.mp hk with h1 | h1
      · have h2 := List.of_mem_filter h1
        simpa using h2
      · rcases List.mem_map.mp h1 with ⟨j, hj, rfl⟩
        exact mem_keys_of_mem (List.mem_of_mem_filter hj)

theorem ustep_preserves {s : MonitorState} (h : selectionInvariant s)
    (a : UAction) : selectionInvariant (ustep s a) := by
  cases a with
  | pollTickEv r => exact updateTable_invariant s (get_queue r)
  | toggleSelect i =>
    unfold ustep
    rcases hg : s.tableRows.get? i with _ | jid
    · simpa only [hg] using h
    · simp only [hg]
      apply rebuild_invariant
      intro k hk
      have hjid : jid ∈ keys s.jobs := h.2 jid (List.get?_mem hg)
      by_cases hmem : jid ∈ s.selected
      · rw [if_pos hmem] at hk
        exact h.1 k (Finset.mem_of_mem_erase hk)
      · rw [if_neg hmem] at hk
        rcases Finset.mem_insert.mp hk with rfl | hk2
        · exact hjid
        · exact h.1 k hk2
  | selectAll =>
    unfold ustep
    apply rebuild_invariant
    intro k hk
    by_cases hsub : ((filteredJobs s).map (·.job_id)).toFinset ⊆ s.selected
    · rw [if_pos hsub] at hk
      simp at hk
    · rw [if_neg hsub] at hk
      rcases List.mem_map.mp (List.mem_toFinset.mp hk) with ⟨j, hj, rfl⟩
      exact mem_keys_of_mem (filteredJobs_subset s j hj)
  | escapePressed =>
    unfold ustep
    by_cases hne : s.selected ≠ ∅
    · rw [if_pos hne]
      apply rebuild_invariant
      intro k hk
      simp at hk
    · rw [if_neg hne]
      apply rebuild_invariant
      intro k hk
      exact h.1 k hk
  | setSearch q =>
    unfold ustep
    apply rebuild_invariant
    intro k hk
    exact h.1 k hk

theorem foldl_ustep_invariant (acts : List UAction) :
    ∀ s, selectionInvariant s → selectionInvariant (acts.foldl ustep s) := by
  induction acts with
  | nil => intro s h; exact h
  | cons a rest ih =>
    intro s h
    exact ih _ (ustep_preserves h a)

/-- C6: after every poll tick of the queue Poller and after every user
selection action — i.e. after any event sequence from the freshly mounted
tab — the set of user-selected job ids is a subset of the key set of the
current job snapshot map. -/
theorem claim_C6_selection_pruning (acts : List UAction) :
    ∀ k ∈ (acts.foldl ustep monitorInit).selected,
      k ∈ keys (acts.foldl ustep monitorInit).jobs :=
  (foldl_ustep_invariant acts monitorInit
    ⟨fun k hk => absurd hk (Finset.not_mem_empty k),
     fun k hk => absurd hk (List.not_mem_nil k)⟩).1

/-- A concrete event sequence: one successful poll delivering one job,
then a toggle-select on the cursor row. -/
def demoTrace : List UAction :=
  [UAction.pollTickEv ⟨0, some [sampleJob]⟩, UAction.toggleSelect 0]

/-- C6 witness: after the demo trace the selected id "1" is indeed a key
of the current snapshot. -/
theorem claim_C6_witness :
    ("1".toList ∈ (demoTrace.foldl ustep monitorInit).selected) ∧
    ("1".toList ∈ keys (demoTrace.foldl ustep monitorInit).jobs) :=
  have hm : ("1".toList ∈ (demoTrace.foldl ustep monitorInit).selected) := by decide
  ⟨hm, claim_C6_selection_pruning demoTrace ("1".toList) hm⟩

/-! ### C3 — log-tailer generation fencing (`InspectorTab._tail_file`)

`_tail_file(path, gen)` runs on a worker thread: it (optionally) emits a
skipped-bytes marker, emits the initial bulk read as one chunk, then loops
`while not worker.is_cancelled and self._tailing and self._tail_gen == gen`
reading one line per iteration.  Every emission goes through
`call_from_thread(self._append_log, text)` — `_append_log` performs no
generation comparison.  The model interleaves the worker's steps with the
UI-thread events that affect it: `supersede` is `_start_log_tail` /
`action_toggle_log_stream` re-tailing (sets `_tailing = False`, increments
`_tail_gen`, and the new exclusive worker cancels this one),
`newWorkerRun` is the superseding worker starting (it sets
`_tailing = True` again), `stopInspect` is `_stop_polling`.  Applied
chunks are tagged with the emitting worker's generation, and
`staleCount` counts the chunks applied while that generation was no
longer current. -/

/-- The tailed file as the worker observes it: whether the 1 MiB cap
forces the skipped-bytes marker, the initial bulk-read content, and the
lines that arrive afterwards (one per follow-loop read). -/
structure TailFile where
  skipMarker : Bool
  initialContent : Str
  lines : List Str
deriving DecidableEq, Repr

/-- Program counter of `_tail_file`. -/
inductive TailPhase
  | initOpen | initRead | followCheck | followRead | done
deriving DecidableEq, Repr

/-- Shared state: the UI thread's `_tail_gen` / `_tailing`, this worker's
cancellation flag and captured `gen`, the worker's position, the
remaining file content, and the chunks applied to the log view (tagged
with the emitting generation). -/
structure TailState where
  curGen : Nat
  tailing : Bool
  cancelled : Bool
  gen : Nat
  phase : TailPhase
  skipMarker : Bool
  content : Str
  pending : List Str
  applied : List (Nat × Str)
  staleCount : Nat
deriving DecidableEq, Repr

/-- Interleaved events: one worker step, or a UI-thread action. -/
inductive TailEvent
  | workerStep | supersede | newWorkerRun | stopInspect
deriving DecidableEq, Repr

/-- The marker text emitted when the initial read was capped. -/
def skipMsg : Str := "(skipped bytes)".toList

/-- `call_from_thread(self._append_log, c)`: applied unconditionally; the
model tags the chunk and counts it as stale when the emitting generation
is no longer current. -/
def applyChunk (s : TailState) (c : Str) : TailState :=
  { s with
    applied := s.applied ++ [(s.gen, c)],
    staleCount := s.staleCount + if s.gen = s.curGen then 0 else 1 }

/-- One interleaving step. -/
def tailStep (s : TailState) : TailEvent → TailState
  | .supersede =>
    { s with curGen := s.curGen + 1, tailing := false, cancelled := true }
  | .newWorkerRun => { s with tailing := true }
  | .stopInspect => { s with tailing := false }
  | .workerStep =>
    match s.phase with
    | .initOpen =>
      let s1 := if s.skipMarker = true then applyChunk s skipMsg else s
      { s1 with phase := .initRead }
    | .initRead =>
      let s1 := if s.content ≠ [] then applyChunk s s.content else s
      { s1 with phase := .followCheck }
    | .followCheck =>
      if s.cancelled = false ∧ s.tailing = true ∧ s.curGen = s.gen
      then { s with phase := .followRead }
      else { s with phase := .done }
    | .followRead =>
      match s.pending with
      | [] => { s with phase := .followCheck }
      | l :: rest =>
        let s1 := applyChunk s l
        { s1 with pending := rest, phase := .followCheck }
    | .done => s

/-- A worker freshly started by `run_worker` for generation `g` (it has
already set `self._tailing = True` and opened the file). -/
def tailInit (f : TailFile) (g : Nat) : TailState :=
  { curGen := g, tailing := true, cancelled := false, gen := g,
    phase := .initOpen, skipMarker := f.skipMarker,
    content := f.initialContent, pending := f.lines,
    applied := [], staleCount := 0 }

/-- Run an interleaving. -/
def tailRun (s : TailState) (evs : List TailEvent) : TailState :=
  evs.foldl tailStep s

/-- C3 counterexample: start tailing a one-chunk file as generation 1,
supersede it (generation 2 starts) before the worker performs its initial
read; the worker's next two steps still apply its initial bulk-read chunk
tagged generation 1 while the current generation is 2 — one stale chunk
applied, where the claim requires zero. -/
theorem claim_C3_counterexample :
    (tailRun (tailInit ⟨false, "x".toList, []⟩ 1)
      [.supersede, .workerStep, .workerStep]).applied = [(1, "x".toList)] ∧
    (tailRun (tailInit ⟨false, "x".toList, []⟩ 1)
      [.supersede, .workerStep, .workerStep]).curGen = 2 ∧
    (tailRun (tailInit ⟨false, "x".toList, []⟩ 1)
      [.supersede, .workerStep, .workerStep]).staleCount = 1 := by
  decide

/-- How many stale chunks a worker at a given position can still emit:
before the first generation check the marker and the bulk chunk are
unfenced; one line read can be in flight; after a failed check, nothing. -/
def phaseBound : TailPhase → Nat
  | .initOpen => 0
  | .initRead => 1
  | .followRead => 0
  | .followCheck => 2
  | .done => 2

/-- Invariant: the captured generation never exceeds the current one, the
stale-chunk count is bounded by the position, and any stale application
implies the worker really is superseded. -/
def TailInv (s : TailState) : Prop :=
  s.gen ≤ s.curGen ∧ s.staleCount ≤ phaseBound s.phase ∧
    (1 ≤ s.staleCount → s.gen < s.curGen)

theorem tailStep_preserves {s : TailState} (h : TailInv s) (e : TailEvent) :
    TailInv (tailStep s e) := by
  obtain ⟨h1, h2, h3⟩ := h
  cases e with
  | supersede =>
    refine ⟨by simp only [tailStep]; omega, ?_, ?_⟩
    · simpa only [tailStep] using h2
    · simp only [tailStep]
      intro hs
      exact lt_of_le_of_lt h1 (Nat.lt_succ_self _)
  | newWorkerRun => exact ⟨h1, h2, h3⟩
  | stopInspect => exact ⟨h1, h2, h3⟩
  | workerStep =>
    cases hph : s.phase with
    | initOpen =>
      rw [hph] at h2
      simp only [phaseBound] at h2
      simp only [tailStep, hph]
      by_cases hsm : s.skipMarker = true
      · rw [if_pos hsm]
        unfold TailInv
        simp only [applyChunk, phaseBound]
        by_cases hg : s.gen = s.curGen
        · rw [if_pos hg]
          exact ⟨h1, by omega, fun hs => by omega⟩
        · rw [if_neg hg]
          exact ⟨h1, by omega, fun hs => by omega⟩
      · rw [if_neg hsm]
        unfold TailInv
        simp only [phaseBound]
        exact ⟨h1, by omega, h3⟩
    | initRead =>
      rw [hph] at h2
      simp only [phaseBound] at h2
      simp only [tailStep, hph]
      by_cases hc : s.content ≠ []
      · rw [if_pos hc]
        unfold TailInv
        simp only [applyChunk, phaseBound]
        by_cases hg : s.gen = s.curGen
        · rw [if_pos hg]
          exact ⟨h1, by omega, fun hs => h3 (by omega)⟩
        · rw [if_neg hg]
          exact ⟨h1, by omega, fun hs => by omega⟩
      · rw [if_neg hc]
        unfold TailInv
        simp only [phaseBound]
        exact ⟨h1, by omega, h3⟩
    | followCheck =>
      rw [hph] at h2
      simp only [phaseBound] at h2
      simp only [tailStep, hph]
      by_cases hcond : s.cancelled = false ∧ s.tailing = true ∧ s.curGen = s.gen
      · rw [if_pos hcond]
        unfold TailInv
        simp only [phaseBound]
        have hz : s.staleCount = 0 := by
          by_contra hne
          have := h3 (by omega)
          omega
        exact ⟨h1, by omega, fun hs => by omega⟩
      · rw [if_neg hcond]
        unfold TailInv
        simp only [phaseBound]
        exact ⟨h1, by omega, h3⟩
    | followRead =>
      rw [hph] at h2
      simp only [phaseBound] at h2
      simp only [tailStep, hph]
      rcases hp : s.pending with _ | ⟨l, rest⟩ <;> simp only [hp]
      · unfold TailInv
        simp only [phaseBound]
        exact ⟨h1, by omega, h3⟩
      · unfold TailInv
        simp only [applyChunk, phaseBound]
        by_cases hg : s.gen = s.curGen
        · rw [if_pos hg]
          exact ⟨h1, by omega, fun hs => by omega⟩
        · rw [if_neg hg]
          exact ⟨h1, by omega, fun hs => by omega⟩
    | done =>
      simp only [tailStep, hph]
      exact ⟨h1, h2, h3⟩

theorem tailRun_inv (evs : List TailEvent) :
    ∀ s, TailInv s → TailInv (tailRun s evs) := by
  induction evs with
  | nil => intro s h; exact h
  | cons e rest ih =>
    intro s h
    exact ih _ (tailStep_preserves h e)

/-- A never-superseded worker stays current and clean. -/
def freshInv (s : TailState) : Prop := s.gen = s.curGen ∧ s.staleCount = 0

theorem tailStep_fresh {s : TailState} (h : freshInv s) {e : TailEvent}
    (he : e ≠ TailEvent.supersede) : freshInv (tailStep s e) := by
  obtain ⟨h1, h2⟩ := h
  cases e with
  | supersede => exact absurd rfl he
  | newWorkerRun => exact ⟨h1, h2⟩
  | stopInspect => exact ⟨h1, h2⟩
  | workerStep =>
    cases hph : s.phase <;> simp only [tailStep, hph]
    · by_cases hsm : s.skipMarker = true
      · rw [if_pos hsm]
        refine ⟨?_, ?_⟩ <;> simp [applyChunk, h1, h2]
      · rw [if_neg hsm]
        exact ⟨h1, h2⟩
    · by_cases hc : s.content ≠ []
      · rw [if_pos hc]
        refine ⟨?_, ?_⟩ <;> simp [applyChunk, h1, h2]
      · rw [if_neg hc]
        exact ⟨h1, h2⟩
    · by_cases hcond : s.cancelled = false ∧ s.tailing = true ∧ s.curGen = s.gen
      · rw [if_pos hcond]
        exact ⟨h1, h2⟩
      · rw [if_neg hcond]
        exact ⟨h1, h2⟩
    · rcases hp : s.pending with _ | ⟨l, rest⟩ <;> simp only [hp]
      · exact ⟨h1, h2⟩
      · refine ⟨?_, ?_⟩ <;> simp [applyChunk, h1, h2]
    · exact ⟨h1, h2⟩

theorem tailRun_fresh (evs : List TailEvent) :
    ∀ s, freshInv s → (∀ e ∈ evs, e ≠ TailEvent.supersede) →
      freshInv (tailRun s evs) := by
  induction evs with
  | nil => intro s h _; exact h
  | cons e rest ih =>
    intro s h hall
    exact ih _ (tailStep_fresh h (hall e (by simp))) fun x hx => hall x (by simp [hx])

/-- C3 amended: chunks are not filtered at apply time — the generation is
consulted only by the producing loop between reads.  Consequently, once
generation g+1 starts, the superseded worker can still apply only its
in-flight pre-check output (the skip marker and/or initial bulk chunk it
had not yet emitted, or the one line it was reading): over any
interleaving at most two chunks are ever applied stale, none after the
superseded loop's next generation check; and with no supersession at all,
zero chunks are ever applied stale. -/
theorem claim_C3_amended (f : TailFile) (g : Nat) (evs : List TailEvent) :
    (tailRun (tailInit f g) evs).staleCount ≤ 2 ∧
    ((∀ e ∈ evs, e ≠ TailEvent.supersede) →
      (tailRun (tailInit f g) evs).staleCount = 0) := by
  constructor
  · have h := tailRun_inv evs (tailInit f g) ⟨le_refl g, by simp [tailInit, phaseBound], by simp [tailInit]⟩
    have hb : phaseBound (tailRun (tailInit f g) evs).phase ≤ 2 := by
      cases (tailRun (tailInit f g) evs).phase <;> simp [phaseBound]
    exact le_trans h.2.1 hb
  · intro hall
    exact (tailRun_fresh evs (tailInit f g) ⟨rfl, rfl⟩ hall).2

/-- C3 witness: a cap-marked file tailed to completion with no
supersession applies no stale chunk. -/
theorem claim_C3_witness :
    (∀ e ∈ ([.workerStep, .workerStep, .workerStep, .workerStep] :
      List TailEvent), e ≠ TailEvent.supersede) ∧
    (tailRun (tailInit ⟨true, "x".toList, ["ln".toList]⟩ 5)
      [.workerStep, .workerStep, .workerStep, .workerStep]).staleCount = 0 :=
  ⟨by decide, (claim_C3_amended ⟨true, "x".toList, ["ln".toList]⟩ 5
    [.workerStep, .workerStep, .workerStep, .workerStep]).2 (by decide)⟩

end SlurmTerm
